import Mathlib

/-!
Verification of the matchmaking, request-lifecycle, chat and reminder logic of
the The-Roaster Django application (apps `teams` and `theroaster`), as a
shallow embedding: model rows are records, the database is lists of rows,
ORM queries become list filters, and time-of-day values (Django `TimeField`)
and timestamps (`DateTimeField`) are minutes as natural numbers.
-/

set_option maxHeartbeats 1000000

namespace TheRoaster

/-- Embeds the `Team` record as used throughout the application
(`views.py`, `serializers.py`, `tests.py`, `admin.py`, `forms`): primary key,
unique name, manager (a user id), skill level (a `CharField` value), location.
Note: `models.py` itself omits the `skill_level` column even though every
other module reads or writes it; that discrepancy is recorded separately by
`teamModelFields` below. -/
structure Team where
  pk : Nat
  name : String
  manager : Nat
  skill_level : String
  location : String
  deriving DecidableEq, Repr

/-- Embeds `Availability` (`models.py` lines 44-58): a weekly slot of a team,
with a day-of-week code (MON..SUN) and start/end times (minutes). -/
structure Availability where
  pk : Nat
  team : Nat
  day_of_week : String
  start_time : Nat
  end_time : Nat
  deriving DecidableEq, Repr

/-- Embeds `MatchRequest` (`models.py` lines 75-105): requester and receiver
team primary keys, a one-character status code (`STATUS_CHOICES` declares
"P", "A", "R", "C"), proposed match time, location, audit timestamps. -/
structure MatchRequest where
  pk : Nat
  requester : Nat
  receiver : Nat
  status : String
  match_time : Nat
  location : String
  created_at : Nat
  updated_at : Nat
  deriving DecidableEq, Repr

/-- Embeds `ChatMessage` (`models.py` lines 144-156): a message bound to one
match request, with a sender user id, timestamp and content. -/
structure ChatMessage where
  pk : Nat
  match_request : Nat
  sender : Nat
  timestamp : Nat
  content : String
  sender_team : Option Nat
  deriving DecidableEq, Repr

/-- The database: one list of rows per model. -/
structure DB where
  teams : List Team
  avails : List Availability
  requests : List MatchRequest
  messages : List ChatMessage
  deriving DecidableEq, Repr

/-- Well-formedness: primary keys of stored teams are pairwise distinct
(the database guarantees this for the `id` column). -/
def DB.WF (db : DB) : Prop := (db.teams.map Team.pk).Nodup

/-- Manager (user id) of the team with the given primary key, if stored. -/
def teamManager (db : DB) (pk : Nat) : Option Nat :=
  (db.teams.find? (fun tm => tm.pk == pk)).map Team.manager

/-- Name of the team with the given primary key (empty if absent). -/
def teamName (db : DB) (pk : Nat) : String :=
  ((db.teams.find? (fun tm => tm.pk == pk)).map Team.name).getD ""

/-- The overlap test applied by `find_available_teams` (`views.py` lines
87-92): a candidate slot `a` is kept for a requester slot `r` when it is on
the same day of week, starts before `r` ends (`start_time__lt=r.end_time`)
and ends after `r` starts (`end_time__gt=r.start_time`). -/
def overlaps (a r : Availability) : Bool :=
  a.day_of_week == r.day_of_week &&
  decide (a.start_time < r.end_time) &&
  decide (a.end_time > r.start_time)

/-- Step 1 of `find_available_teams` (`views.py` lines 72-74): candidate
teams are all stored teams other than the requesting team
(`exclude(pk=...)`), with the same skill level, and with a different
manager (`exclude(manager=...)`). -/
def fat_candidates (db : DB) (t : Team) : List Team :=
  db.teams.filter (fun u =>
    u.pk != t.pk && u.skill_level == t.skill_level && u.manager != t.manager)

/-- Step 2 of `find_available_teams` (`views.py` line 80): the availability
slots of the requesting team. -/
def fat_requester_avails (db : DB) (t : Team) : List Availability :=
  db.avails.filter (fun a => a.team == t.pk)

/-- Step 3 of `find_available_teams` (`views.py` lines 85-93): for each
requester slot, the ids of candidate teams owning a slot on the same day
with strict time overlap, accumulated over all requester slots (the Python
set union becomes list concatenation; only membership matters). -/
def fat_available_team_ids (db : DB) (t : Team) : List Nat :=
  (fat_requester_avails db t).flatMap (fun r =>
    (db.avails.filter (fun a =>
      (fat_candidates db t).any (fun c => c.pk == a.team) && overlaps a r)).map
      (fun a => a.team))

/-- Order instances for sorting teams by name (`order_by` on a `CharField`
is an ascending lexicographic sort). -/
instance instTeamNameTotal : IsTotal Team (fun u v : Team => u.name ≤ v.name) :=
  ⟨fun u v => le_total u.name v.name⟩

instance instTeamNameTrans : IsTrans Team (fun u v : Team => u.name ≤ v.name) :=
  ⟨fun _ _ _ h1 h2 => le_trans h1 h2⟩

instance instTeamNameDecRel : DecidableRel (fun u v : Team => u.name ≤ v.name) :=
  fun u v => inferInstanceAs (Decidable (u.name ≤ v.name))

/-- Embeds `find_available_teams` (`views.py` lines 60-99), the instance
path of the helper (the function also accepts a primary key; see
`find_available_teams_by_pk`): same-skill different-manager candidates,
empty result when there are no candidates or the requester has no slots,
otherwise the stored teams whose id gained an overlapping slot, distinct
and ordered by name. -/
def find_available_teams (db : DB) (t : Team) : List Team :=
  if (fat_candidates db t).isEmpty then [] else
  if (fat_requester_avails db t).isEmpty then [] else
  if (fat_available_team_ids db t).isEmpty then [] else
  List.insertionSort (fun u v : Team => u.name ≤ v.name)
    (db.teams.filter (fun u => (fat_available_team_ids db t).contains u.pk))

/-- The pk-accepting entry of `find_available_teams` (`views.py` lines
66-69): look the team up first, returning the empty queryset when absent. -/
def find_available_teams_by_pk (db : DB) (pk : Nat) : List Team :=
  match db.teams.find? (fun tm => tm.pk == pk) with
  | none => []
  | some t => find_available_teams db t

/-- Unfolding lemma: `overlaps` holds exactly when the two slots share a
day of week and each starts strictly before the other ends. -/
theorem overlaps_eq_true_iff (a r : Availability) :
    overlaps a r = true ↔
      (a.day_of_week = r.day_of_week ∧
       a.start_time < r.end_time ∧ r.start_time < a.end_time) := by
  simp [overlaps, Bool.and_eq_true, decide_eq_true_iff, gt_iff_lt, and_assoc]

/-- Claim C8: the interval-overlap check of the matchmaking query is
symmetric and strict: `overlaps a b` equals `overlaps b a`; it holds exactly
when the two slots share a day of week and each starts strictly before the
other ends; and two slots that merely abut (the end time of one equals the
start time of the other) never overlap. -/
theorem overlap_symmetric_and_strict (a b : Availability) :
    overlaps a b = overlaps b a ∧
    (overlaps a b = true ↔
      (a.day_of_week = b.day_of_week ∧
       a.start_time < b.end_time ∧ b.start_time < a.end_time)) ∧
    (a.end_time = b.start_time → overlaps a b = false) := by
  refine ⟨?_, overlaps_eq_true_iff a b, ?_⟩
  · rw [Bool.eq_iff_iff, overlaps_eq_true_iff a b, overlaps_eq_true_iff b a]
    constructor
    · rintro ⟨hd, h1, h2⟩; exact ⟨hd.symm, h2, h1⟩
    · rintro ⟨hd, h1, h2⟩; exact ⟨hd.symm, h2, h1⟩
  · intro habut
    cases hov : overlaps a b with
    | false => rfl
    | true =>
      rcases (overlaps_eq_true_iff a b).mp hov with ⟨-, -, h2⟩
      omega

/-- Witness for claim C8 at concrete slots: two abutting Monday slots
(18:00-20:00 and 20:00-22:00, in minutes) do not overlap. -/
theorem overlap_symmetric_and_strict_witness :
    overlaps ⟨1, 5, "MON", 1080, 1200⟩ ⟨2, 6, "MON", 1200, 1320⟩ = false :=
  (overlap_symmetric_and_strict ⟨1, 5, "MON", 1080, 1200⟩
    ⟨2, 6, "MON", 1200, 1320⟩).2.2 (by decide)

/-- Membership in the candidate list of step 1. -/
theorem mem_fat_candidates (db : DB) (t u : Team) :
    u ∈ fat_candidates db t ↔
      (u ∈ db.teams ∧ u.pk ≠ t.pk ∧ u.skill_level = t.skill_level ∧
       u.manager ≠ t.manager) := by
  simp [fat_candidates, List.mem_filter, Bool.and_eq_true, and_assoc]

/-- Membership in the requester-slot list of step 2. -/
theorem mem_fat_requester_avails (db : DB) (t : Team) (a : Availability) :
    a ∈ fat_requester_avails db t ↔ (a ∈ db.avails ∧ a.team = t.pk) := by
  simp [fat_requester_avails, List.mem_filter]

/-- Membership in the id accumulation of step 3. -/
theorem mem_fat_available_team_ids (db : DB) (t : Team) (p : Nat) :
    p ∈ fat_available_team_ids db t ↔
      ∃ r ∈ fat_requester_avails db t, ∃ a ∈ db.avails,
        (∃ c ∈ fat_candidates db t, c.pk = a.team) ∧
        overlaps a r = true ∧ a.team = p := by
  simp only [fat_available_team_ids, List.mem_flatMap, List.mem_map,
    List.mem_filter, Bool.and_eq_true, List.any_eq_true, beq_iff_eq]
  tauto

/-- Primary keys identify stored teams in a well-formed database. -/
theorem team_pk_inj (db : DB) (hwf : DB.WF db) :
    ∀ a ∈ db.teams, ∀ b ∈ db.teams, a.pk = b.pk → a = b := by
  intro a ha b hb hab
  exact List.inj_on_of_nodup_map hwf ha hb hab

/-- Membership in the final result, reduced to the id accumulation. -/
theorem mem_find_available_teams (db : DB) (t u : Team) :
    u ∈ find_available_teams db t ↔
      (u ∈ db.teams ∧ u.pk ∈ fat_available_team_ids db t) := by
  unfold find_available_teams
  constructor
  · intro hu
    split_ifs at hu with h1 h2 h3
    · exact absurd hu (List.not_mem_nil u)
    · exact absurd hu (List.not_mem_nil u)
    · exact absurd hu (List.not_mem_nil u)
    · have hperm := List.perm_insertionSort (fun u v : Team => u.name ≤ v.name)
        (db.teams.filter (fun u => (fat_available_team_ids db t).contains u.pk))
      rw [hperm.mem_iff, List.mem_filter] at hu
      refine ⟨hu.1, ?_⟩
      simpa using hu.2
  · rintro ⟨hmem, hid⟩
    have hids : ¬ (fat_available_team_ids db t).isEmpty := by
      rw [List.isEmpty_iff]
      exact fun h => absurd (h ▸ hid) (List.not_mem_nil u.pk)
    rcases (mem_fat_available_team_ids db t u.pk).mp hid with
      ⟨r, hr, a, _, ⟨c, hc, _⟩, _, _⟩
    have hreq : ¬ (fat_requester_avails db t).isEmpty := by
      rw [List.isEmpty_iff]
      exact fun h => absurd (h ▸ hr) (List.not_mem_nil r)
    have hcand : ¬ (fat_candidates db t).isEmpty := by
      rw [List.isEmpty_iff]
      exact fun h => absurd (h ▸ hc) (List.not_mem_nil c)
    rw [if_neg hcand, if_neg hreq, if_neg hids]
    have hperm := List.perm_insertionSort (fun u v : Team => u.name ≤ v.name)
      (db.teams.filter (fun u => (fat_available_team_ids db t).contains u.pk))
    rw [hperm.mem_iff, List.mem_filter]
    exact ⟨hmem, by simpa using hid⟩

/-- Modelled from the wording of claim C1 (spec side, for comparison with
the code): a compatible opponent of `t` is a stored team other than `t`,
with a different manager and the same skill level, owning a slot on the
same day of week as some slot of `t` that starts before the slot of `t`
ends and ends after it starts. -/
def spec_compatible_opponent (db : DB) (t u : Team) : Prop :=
  u ∈ db.teams ∧ u ≠ t ∧ u.manager ≠ t.manager ∧
  u.skill_level = t.skill_level ∧
  ∃ ra ∈ db.avails, ra.team = t.pk ∧
    ∃ ua ∈ db.avails, ua.team = u.pk ∧ ua.day_of_week = ra.day_of_week ∧
      ua.start_time < ra.end_time ∧ ua.end_time > ra.start_time

/-- Claim C1: in a well-formed database, `find_available_teams` returns
exactly the compatible opponents of the requesting team (not the team
itself, different manager, equal skill level, some slot of the opponent on
the same day as some slot of the requester with strict time overlap); the
result is empty when the requester has no slots, and it is ordered by team
name. -/
theorem find_available_teams_correct (db : DB) (t : Team)
    (hwf : DB.WF db) (ht : t ∈ db.teams) :
    (∀ u, u ∈ find_available_teams db t ↔ spec_compatible_opponent db t u) ∧
    ((∀ a ∈ db.avails, a.team ≠ t.pk) → find_available_teams db t = []) ∧
    List.Sorted (fun u v : Team => u.name ≤ v.name)
      (find_available_teams db t) := by
  refine ⟨?_, ?_, ?_⟩
  · intro u
    rw [mem_find_available_teams]
    constructor
    · rintro ⟨hmem, hid⟩
      rcases (mem_fat_available_team_ids db t u.pk).mp hid with
        ⟨r, hr, a, ha, ⟨c, hc, hcpk⟩, hov, hteam⟩
      rcases (mem_fat_requester_avails db t r).mp hr with ⟨hrmem, hrteam⟩
      rcases (mem_fat_candidates db t c).mp hc with ⟨hcmem, hcne, hcskill, hcmgr⟩
      have hcu : c = u := team_pk_inj db hwf c hcmem u hmem (by omega)
      subst hcu
      rcases (overlaps_eq_true_iff a r).mp hov with ⟨hday, hlt1, hlt2⟩
      refine ⟨hmem, ?_, hcmgr, hcskill, r, hrmem, hrteam, a, ha, hteam, hday,
        hlt1, hlt2⟩
      intro hut
      exact hcne (by rw [hut])
    · rintro ⟨hmem, hne, hmgr, hskill, ra, hra, hrateam, ua, hua, huateam,
        hday, hlt1, hlt2⟩
      refine ⟨hmem, (mem_fat_available_team_ids db t u.pk).mpr ?_⟩
      have hpkne : u.pk ≠ t.pk := by
        intro hpk
        exact hne (team_pk_inj db hwf u hmem t ht hpk)
      refine ⟨ra, (mem_fat_requester_avails db t ra).mpr ⟨hra, hrateam⟩,
        ua, hua, ⟨u, (mem_fat_candidates db t u).mpr ⟨hmem, hpkne, hskill, hmgr⟩,
          huateam.symm⟩,
        (overlaps_eq_true_iff ua ra).mpr ⟨hday, hlt1, hlt2⟩, huateam⟩
  · intro hnoslot
    have hreq : fat_requester_avails db t = [] := by
      rw [fat_requester_avails, List.filter_eq_nil_iff]
      intro a ha
      simpa using hnoslot a ha
    unfold find_available_teams
    split_ifs with h1 h2 h3 <;> try rfl
    exact absurd (by simp [hreq]) h2
  · unfold find_available_teams
    split_ifs <;>
      first
        | exact List.sorted_nil
        | exact List.sorted_insertionSort (fun u v : Team => u.name ≤ v.name) _

/-- A concrete database for witnesses: user 1 manages the requesting team
Alpha (skill 3, Monday 19:00-21:00); Bravo (skill 3, manager 2, Monday
18:00-22:00) is a compatible opponent. -/
def wdb1 : DB :=
  { teams := [⟨1, "Alpha", 1, "3", "Park A"⟩, ⟨2, "Bravo", 2, "3", "Park B"⟩],
    avails := [⟨1, 1, "MON", 1140, 1260⟩, ⟨2, 2, "MON", 1080, 1320⟩],
    requests := [],
    messages := [] }

/-- Witness for claim C1 at the concrete database `wdb1`. -/
theorem find_available_teams_correct_witness :
    (∀ u, u ∈ find_available_teams wdb1 ⟨1, "Alpha", 1, "3", "Park A"⟩ ↔
      spec_compatible_opponent wdb1 ⟨1, "Alpha", 1, "3", "Park A"⟩ u) ∧
    ((∀ a ∈ wdb1.avails, a.team ≠ (1 : Nat)) →
      find_available_teams wdb1 ⟨1, "Alpha", 1, "3", "Park A"⟩ = []) ∧
    List.Sorted (fun u v : Team => u.name ≤ v.name)
      (find_available_teams wdb1 ⟨1, "Alpha", 1, "3", "Park A"⟩) :=
  find_available_teams_correct wdb1 ⟨1, "Alpha", 1, "3", "Park A"⟩
    (by unfold DB.WF; decide) (by decide)

/-- Column names the `Team` model declares in `src/teams/models.py`
(lines 4-11): `name`, `manager`, `location` — and nothing else. -/
def teamModelFields : List String := ["name", "manager", "location"]

/-- Fields `TeamSerializer.Meta` lists (`src/teams/serializers.py` line 16). -/
def teamSerializerFields : List String :=
  ["id", "name", "skill_level", "location", "manager", "manager_username"]

/-- Keyword arguments the test suite of the repository passes to
`Team.objects.create` (`src/teams/tests.py` line 12). -/
def teamTestCreateFields : List String :=
  ["name", "manager", "skill_level", "location"]

/-- Lookup fields the candidate query of `find_available_teams` uses
(`src/teams/views.py` lines 72-74). -/
def matchmakingFilterFields : List String := ["pk", "skill_level", "manager"]

/-- Claim C2: the `skill_level` attribute every reader assumes is absent
from the `Team` model declaration, while the serializer, the test suite
and the matchmaking filter all reference it — so reads of the skill level
of a team are not well-defined against the declared model. -/
theorem team_skill_level_missing :
    "skill_level" ∉ teamModelFields ∧
    "skill_level" ∈ teamSerializerFields ∧
    "skill_level" ∈ teamTestCreateFields ∧
    "skill_level" ∈ matchmakingFilterFields := by decide

/-- HTTP outcome of the accept and reject actions. -/
inductive HStatus where
  | s200
  | s400
  | s403
  deriving DecidableEq, Repr

/-- Embeds `Team.objects.filter(manager=request.user).first()` as used in
`perform_create`, `accept` and `reject` (`views.py` lines 431, 440, 463):
the first stored team managed by the user, in database order. -/
def first_managed_team (db : DB) (user : Nat) : Option Team :=
  db.teams.find? (fun tm => tm.manager == user)

/-- Embeds the body of `MatchRequestViewSet.accept` (`views.py` lines
437-458) AFTER `self.get_object()` has resolved the request: 403 unless
the receiver equals the first team managed by the caller (Django model
equality is by primary key; a caller with no team never matches), 400
unless the status is pending, otherwise the status becomes accepted and
is saved. The full view, object resolution over the participant-scoped
queryset included, is `accept_view` below. -/
def accept_action (db : DB) (user : Nat) (mr : MatchRequest) :
    HStatus × MatchRequest :=
  if (first_managed_team db user).map Team.pk ≠ some mr.receiver then
    (HStatus.s403, mr)
  else if mr.status ≠ "P" then
    (HStatus.s400, mr)
  else
    (HStatus.s200, { mr with status := "A" })

/-- Embeds the body of `MatchRequestViewSet.reject` (`views.py` lines
460-481) after object resolution, identical to `accept_action` except
the final status is rejected; the full view is `reject_view` below. -/
def reject_action (db : DB) (user : Nat) (mr : MatchRequest) :
    HStatus × MatchRequest :=
  if (first_managed_team db user).map Team.pk ≠ some mr.receiver then
    (HStatus.s403, mr)
  else if mr.status ≠ "P" then
    (HStatus.s400, mr)
  else
    (HStatus.s200, { mr with status := "R" })

/-- Claim C3: the accept and reject actions realise the request state
machine: on a non-pending request both return an error (never success)
and leave the request unchanged, and whenever either action changes the
request at all, the request was pending and the new status is accepted
(respectively rejected). -/
theorem matchrequest_state_machine (db : DB) (user : Nat)
    (mr : MatchRequest) :
    (mr.status ≠ "P" →
      (accept_action db user mr).1 ≠ HStatus.s200 ∧
      (accept_action db user mr).2 = mr ∧
      (reject_action db user mr).1 ≠ HStatus.s200 ∧
      (reject_action db user mr).2 = mr) ∧
    ((accept_action db user mr).2 ≠ mr →
      mr.status = "P" ∧ (accept_action db user mr).2.status = "A") ∧
    ((reject_action db user mr).2 ≠ mr →
      mr.status = "P" ∧ (reject_action db user mr).2.status = "R") := by
  unfold accept_action reject_action
  split_ifs with h1 h2 <;>
    simp_all

/-- Witness for claim C3: on a concrete already-accepted request, both
actions err and change nothing. -/
theorem matchrequest_state_machine_witness :
    (accept_action wdb1 2 ⟨7, 1, 2, "A", 900, "", 5, 5⟩).1 ≠ HStatus.s200 ∧
    (accept_action wdb1 2 ⟨7, 1, 2, "A", 900, "", 5, 5⟩).2 =
      ⟨7, 1, 2, "A", 900, "", 5, 5⟩ ∧
    (reject_action wdb1 2 ⟨7, 1, 2, "A", 900, "", 5, 5⟩).1 ≠ HStatus.s200 ∧
    (reject_action wdb1 2 ⟨7, 1, 2, "A", 900, "", 5, 5⟩).2 =
      ⟨7, 1, 2, "A", 900, "", 5, 5⟩ :=
  (matchrequest_state_machine wdb1 2 ⟨7, 1, 2, "A", 900, "", 5, 5⟩).1
    (by decide)

/-- Embeds `user_teams_pk` of `MatchRequestViewSet.get_queryset`
(`views.py` line 424): the primary keys of the teams managed by the
caller. -/
def user_teams_pks (db : DB) (user : Nat) : List Nat :=
  (db.teams.filter (fun tm => tm.manager == user)).map Team.pk

/-- Embeds `MatchRequestViewSet.get_queryset` (`views.py` lines 423-427):
the stored match requests whose requester or receiver is a team managed
by the caller (the `-created_at` ordering is irrelevant to object
lookup and omitted). -/
def matchrequest_queryset (db : DB) (user : Nat) : List MatchRequest :=
  db.requests.filter (fun r =>
    (user_teams_pks db user).contains r.requester ||
    (user_teams_pks db user).contains r.receiver)

/-- Outcome of the full accept/reject views: 404 when `get_object` finds
no request with the given pk in the participant-scoped queryset,
otherwise the HTTP status and saved request of the action body. -/
inductive ViewResult where
  | notFound
  | resp (s : HStatus) (mr : MatchRequest)
  deriving DecidableEq, Repr

/-- Embeds `MatchRequestViewSet.accept` in full (`views.py` lines
437-458): `self.get_object()` (line 439) resolves the pk against the
participant-scoped queryset of lines 423-427 and yields 404 when absent;
the action body then runs on the resolved request. -/
def accept_view (db : DB) (user : Nat) (pk : Nat) : ViewResult :=
  match (matchrequest_queryset db user).find? (fun r => r.pk == pk) with
  | none => ViewResult.notFound
  | some mr =>
    ViewResult.resp (accept_action db user mr).1 (accept_action db user mr).2

/-- Embeds `MatchRequestViewSet.reject` in full (`views.py` lines
460-481), with the same object resolution (line 462). -/
def reject_view (db : DB) (user : Nat) (pk : Nat) : ViewResult :=
  match (matchrequest_queryset db user).find? (fun r => r.pk == pk) with
  | none => ViewResult.notFound
  | some mr =>
    ViewResult.resp (reject_action db user mr).1 (reject_action db user mr).2

/-- A database where user 1 manages two teams (Alpha pk 1 first, Beta pk 2
second) and user 2 manages Gamma (pk 3); request 10 is a pending request
from Gamma to Beta. -/
def cdb4 : DB :=
  { teams := [⟨1, "Alpha", 1, "3", ""⟩, ⟨2, "Beta", 1, "3", ""⟩,
      ⟨3, "Gamma", 2, "3", ""⟩],
    avails := [],
    requests := [⟨10, 3, 2, "P", 900, "", 1, 1⟩],
    messages := [] }

/-- Counterexample to claim C4: user 1 is the manager of the receiving
team (Beta, pk 2) of the pending request 10, so `get_object` resolves it,
yet the accept and reject views neither succeed nor leave any path to
success — both return 403 with the request unchanged — because the code
compares the receiver against the FIRST team managed by the caller
(Alpha, pk 1). -/
theorem accept_auth_counterexample :
    teamManager cdb4 2 = some 1 ∧
    (⟨10, 3, 2, "P", 900, "", 1, 1⟩ : MatchRequest).status = "P" ∧
    (⟨10, 3, 2, "P", 900, "", 1, 1⟩ : MatchRequest).receiver = 2 ∧
    accept_view cdb4 1 10 =
      ViewResult.resp HStatus.s403 ⟨10, 3, 2, "P", 900, "", 1, 1⟩ ∧
    reject_view cdb4 1 10 =
      ViewResult.resp HStatus.s403 ⟨10, 3, 2, "P", 900, "", 1, 1⟩ := by decide

/-- Claim C4 as amended: a caller who manages neither the requester team
nor the receiver team of any stored request with the given pk receives a
404 from object resolution; for a caller whose scoped queryset resolves a
pending request, accept (respectively reject) succeeds — saving status
"A" (respectively "R") — if and only if the FIRST team managed by the
caller, in database order, is the receiving team, and otherwise returns
403 with the status unchanged. -/
theorem accept_reject_authorization (db : DB) (user : Nat) (pk : Nat) :
    ((∀ r ∈ db.requests, r.pk = pk →
        r.requester ∉ user_teams_pks db user ∧
        r.receiver ∉ user_teams_pks db user) →
      accept_view db user pk = ViewResult.notFound ∧
      reject_view db user pk = ViewResult.notFound) ∧
    (∀ mr, (matchrequest_queryset db user).find? (fun r => r.pk == pk) =
        some mr →
      mr.status = "P" →
      ((accept_view db user pk =
          ViewResult.resp HStatus.s200 { mr with status := "A" } ↔
        (first_managed_team db user).map Team.pk = some mr.receiver) ∧
       ((first_managed_team db user).map Team.pk ≠ some mr.receiver →
        accept_view db user pk = ViewResult.resp HStatus.s403 mr) ∧
       (reject_view db user pk =
          ViewResult.resp HStatus.s200 { mr with status := "R" } ↔
        (first_managed_team db user).map Team.pk = some mr.receiver) ∧
       ((first_managed_team db user).map Team.pk ≠ some mr.receiver →
        reject_view db user pk = ViewResult.resp HStatus.s403 mr))) := by
  constructor
  · intro hnp
    have hfind : (matchrequest_queryset db user).find?
        (fun r => r.pk == pk) = none := by
      rw [List.find?_eq_none]
      intro x hx
      rcases List.mem_filter.mp hx with ⟨hxin, hxpart⟩
      simp only [beq_iff_eq]
      intro hxpk
      rcases hnp x hxin hxpk with ⟨hnr, hns⟩
      rw [Bool.or_eq_true] at hxpart
      rcases hxpart with h | h
      · exact hnr (by simpa using h)
      · exact hns (by simpa using h)
    constructor
    · simp only [accept_view, hfind]
    · simp only [reject_view, hfind]
  · intro mr hfind hp
    have haccept : accept_view db user pk =
        ViewResult.resp (accept_action db user mr).1
          (accept_action db user mr).2 := by
      simp only [accept_view, hfind]
    have hreject : reject_view db user pk =
        ViewResult.resp (reject_action db user mr).1
          (reject_action db user mr).2 := by
      simp only [reject_view, hfind]
    by_cases hfirst :
        (first_managed_team db user).map Team.pk = some mr.receiver
    · have ha : accept_action db user mr =
          (HStatus.s200, { mr with status := "A" }) := by
        unfold accept_action
        rw [if_neg (not_not_intro hfirst), if_neg (not_not_intro hp)]
      have hr : reject_action db user mr =
          (HStatus.s200, { mr with status := "R" }) := by
        unfold reject_action
        rw [if_neg (not_not_intro hfirst), if_neg (not_not_intro hp)]
      rw [haccept, hreject, ha, hr]
      refine ⟨by simp [hfirst], fun h => absurd hfirst h,
        by simp [hfirst], fun h => absurd hfirst h⟩
    · have ha : accept_action db user mr = (HStatus.s403, mr) := by
        unfold accept_action
        rw [if_pos hfirst]
      have hr : reject_action db user mr = (HStatus.s403, mr) := by
        unfold reject_action
        rw [if_pos hfirst]
      rw [haccept, hreject, ha, hr]
      refine ⟨?_, fun _ => rfl, ?_, fun _ => rfl⟩
      · constructor
        · intro h
          simp at h
        · intro h
          exact absurd h hfirst
      · constructor
        · intro h
          simp at h
        · intro h
          exact absurd h hfirst

/-- Witness for amended claim C4: in `cdb4`, user 2 reaches the action
(their team Gamma is the requester of request 10), but their first
managed team is not the receiver, so both actions return 403 and neither
succeeds. -/
theorem accept_reject_authorization_witness :
    (accept_view cdb4 2 10 =
        ViewResult.resp HStatus.s200
          { (⟨10, 3, 2, "P", 900, "", 1, 1⟩ : MatchRequest) with status := "A" } ↔
      (first_managed_team cdb4 2).map Team.pk = some 2) ∧
    ((first_managed_team cdb4 2).map Team.pk ≠ some 2 →
      accept_view cdb4 2 10 =
        ViewResult.resp HStatus.s403 ⟨10, 3, 2, "P", 900, "", 1, 1⟩) ∧
    (reject_view cdb4 2 10 =
        ViewResult.resp HStatus.s200
          { (⟨10, 3, 2, "P", 900, "", 1, 1⟩ : MatchRequest) with status := "R" } ↔
      (first_managed_team cdb4 2).map Team.pk = some 2) ∧
    ((first_managed_team cdb4 2).map Team.pk ≠ some 2 →
      reject_view cdb4 2 10 =
        ViewResult.resp HStatus.s403 ⟨10, 3, 2, "P", 900, "", 1, 1⟩) :=
  (accept_reject_authorization cdb4 2 10).2 ⟨10, 3, 2, "P", 900, "", 1, 1⟩
    (by decide) (by decide)

/-- Embeds `IsMatchParticipantPermission.has_object_permission`
(`views.py` lines 46-56): the caller manages the requester team or the
receiver team of the match request. -/
def is_match_participant (db : DB) (user : Nat) (mr : MatchRequest) : Bool :=
  teamManager db mr.requester == some user ||
  teamManager db mr.receiver == some user

/-- Outcome of listing the chat messages of a match request. -/
inductive ChatListResult where
  | notFound
  | denied
  | ok (msgs : List ChatMessage)
  deriving DecidableEq, Repr

/-- Order instances for sorting chat messages by timestamp. -/
instance instMsgTsTotal :
    IsTotal ChatMessage (fun m1 m2 : ChatMessage => m1.timestamp ≤ m2.timestamp) :=
  ⟨fun m1 m2 => Nat.le_total m1.timestamp m2.timestamp⟩

instance instMsgTsTrans :
    IsTrans ChatMessage (fun m1 m2 : ChatMessage => m1.timestamp ≤ m2.timestamp) :=
  ⟨fun _ _ _ h1 h2 => Nat.le_trans h1 h2⟩

instance instMsgTsDecRel :
    DecidableRel (fun m1 m2 : ChatMessage => m1.timestamp ≤ m2.timestamp) :=
  fun m1 m2 => Nat.decLe m1.timestamp m2.timestamp

/-- Embeds `ChatMessageViewSet.get_queryset` (`views.py` lines 387-398):
with no `match_request_pk` the empty queryset; with an unknown pk a 404;
for a caller managing neither participant team a permission error;
otherwise the messages of that match request ordered by timestamp. -/
def chat_get_queryset (db : DB) (user : Nat) (mrpk? : Option Nat) :
    ChatListResult :=
  match mrpk? with
  | none => ChatListResult.ok []
  | some mrpk =>
    match db.requests.find? (fun r => r.pk == mrpk) with
    | none => ChatListResult.notFound
    | some mr =>
      if is_match_participant db user mr then
        ChatListResult.ok
          (List.insertionSort (fun m1 m2 : ChatMessage => m1.timestamp ≤ m2.timestamp)
            (db.messages.filter (fun m => m.match_request == mrpk)))
      else ChatListResult.denied

/-- Claim C5: chat messages are scoped to one match request and gated on
its participant managers: a caller managing neither the requester team
nor the receiver team is denied; a participant manager obtains exactly
the stored messages of that match request, ordered by timestamp. -/
theorem chat_scoped_to_participants (db : DB) (user : Nat) (mrpk : Nat)
    (mr : MatchRequest)
    (hfind : db.requests.find? (fun r => r.pk == mrpk) = some mr) :
    ((teamManager db mr.requester ≠ some user ∧
      teamManager db mr.receiver ≠ some user) →
      chat_get_queryset db user (some mrpk) = ChatListResult.denied) ∧
    ((teamManager db mr.requester = some user ∨
      teamManager db mr.receiver = some user) →
      ∃ msgs, chat_get_queryset db user (some mrpk) = ChatListResult.ok msgs ∧
        (∀ m, m ∈ msgs ↔ (m ∈ db.messages ∧ m.match_request = mrpk)) ∧
        List.Sorted (fun m1 m2 : ChatMessage => m1.timestamp ≤ m2.timestamp)
          msgs) := by
  constructor
  · rintro ⟨hreq, hrec⟩
    have hpart : is_match_participant db user mr = false := by
      simp [is_match_participant, hreq, hrec]
    simp only [chat_get_queryset, hfind, hpart]
    rfl
  · intro hpart
    have hpart2 : is_match_participant db user mr = true := by
      simp [is_match_participant]
      rcases hpart with h | h
      · exact Or.inl h
      · exact Or.inr h
    simp only [chat_get_queryset, hfind, hpart2, if_true]
    refine ⟨_, rfl, ?_, ?_⟩
    · intro m
      have hperm := List.perm_insertionSort
        (fun m1 m2 : ChatMessage => m1.timestamp ≤ m2.timestamp)
        (db.messages.filter (fun m => m.match_request == mrpk))
      rw [hperm.mem_iff, List.mem_filter]
      simp
    · exact List.sorted_insertionSort _ _

/-- A database for the chat witness: Alpha (manager 1) requested a match
against Bravo (manager 2), request pk 10, with two stored messages in
reverse time order plus one message of an unrelated request. -/
def wdb5 : DB :=
  { teams := [⟨1, "Alpha", 1, "3", ""⟩, ⟨2, "Bravo", 2, "3", ""⟩],
    avails := [],
    requests := [⟨10, 1, 2, "P", 900, "", 1, 1⟩],
    messages := [⟨1, 10, 1, 50, "second", some 1⟩, ⟨2, 10, 2, 20, "first", some 2⟩,
      ⟨3, 11, 1, 5, "other", none⟩] }

/-- Witness for claim C5 at `wdb5` with caller 2 (manager of the
receiver). -/
theorem chat_scoped_to_participants_witness :
    ((teamManager wdb5 1 ≠ some 2 ∧ teamManager wdb5 2 ≠ some 2) →
      chat_get_queryset wdb5 2 (some 10) = ChatListResult.denied) ∧
    ((teamManager wdb5 1 = some 2 ∨ teamManager wdb5 2 = some 2) →
      ∃ msgs, chat_get_queryset wdb5 2 (some 10) = ChatListResult.ok msgs ∧
        (∀ m, m ∈ msgs ↔ (m ∈ wdb5.messages ∧ m.match_request = 10)) ∧
        List.Sorted (fun m1 m2 : ChatMessage => m1.timestamp ≤ m2.timestamp)
          msgs) :=
  chat_scoped_to_participants wdb5 2 10 ⟨10, 1, 2, "P", 900, "", 1, 1⟩
    (by decide)

/-- Outcome of the matchmaking endpoint. -/
inductive MatchingResult where
  | badRequest
  | forbidden
  | ok (teams : List Team)
  deriving DecidableEq, Repr

/-- Embeds `MatchingAPIView.get` (`views.py` lines 329-356): 400 when the
`day` query parameter is absent or empty (Python truthiness), 403 when the
caller manages no team, otherwise the distinct stored teams, excluding the
id of the first team managed by the caller, having at least one slot on the
requested day. No skill filter appears anywhere in this view. -/
def matching_get (db : DB) (user : Nat) (day? : Option String) :
    MatchingResult :=
  if day?.getD "" = "" then MatchingResult.badRequest
  else
    match first_managed_team db user with
    | none => MatchingResult.forbidden
    | some ut =>
      MatchingResult.ok (db.teams.filter (fun u =>
        u.pk != ut.pk &&
        db.avails.any (fun a => a.team == u.pk && a.day_of_week == day?.getD "")))

/-- The skill bounds the repository test suite itself uses for matching
(`tests.py` lines 82-85): target plus or minus one, clamped to [1, 4];
stored as one-character strings, so the eligible skill codes for target 3
are "2", "3" and "4". -/
def test_skill_bounds (target : Nat) : Nat × Nat :=
  (max 1 (target - 1), min 4 (target + 1))

/-- A database for the C6 counterexample: user 1 manages Xray (skill "3");
Yankee (manager 2, skill "1") is available on Monday. -/
def cdb6 : DB :=
  { teams := [⟨1, "Xray", 1, "3", ""⟩, ⟨2, "Yankee", 2, "1", ""⟩],
    avails := [⟨1, 2, "MON", 1080, 1320⟩],
    requests := [],
    messages := [] }

/-- Counterexample to claim C6: the matchmaking endpoint applies no skill
filter. User 1 manages a skill "3" team; with day MON the endpoint returns
Yankee, whose skill "1" is outside every reading of the skill range of a
skill 3 team (the test suite of the repository bounds it by
`test_skill_bounds 3 = (2, 4)`, so the eligible codes are "2", "3", "4"). -/
theorem matching_skill_counterexample :
    matching_get cdb6 1 (some "MON") =
      MatchingResult.ok [⟨2, "Yankee", 2, "1", ""⟩] ∧
    (first_managed_team cdb6 1).map Team.skill_level = some "3" ∧
    test_skill_bounds 3 = (2, 4) ∧
    (⟨2, "Yankee", 2, "1", ""⟩ : Team).skill_level ∉ ["2", "3", "4"] := by
  decide

/-- Claim C6 as amended: the matchmaking endpoint filters by day only:
without a day parameter it returns 400; for a caller managing no team it
returns 403; otherwise it returns exactly the stored teams, other than
the first team managed by the caller, having at least one availability
slot on the requested day — with no skill filter. -/
theorem matching_day_filter (db : DB) (user : Nat) (day : String)
    (hday : day ≠ "") :
    matching_get db user none = MatchingResult.badRequest ∧
    (first_managed_team db user = none →
      matching_get db user (some day) = MatchingResult.forbidden) ∧
    (∀ ut, first_managed_team db user = some ut →
      ∃ ts, matching_get db user (some day) = MatchingResult.ok ts ∧
        ∀ u, u ∈ ts ↔ (u ∈ db.teams ∧ u.pk ≠ ut.pk ∧
          ∃ a ∈ db.avails, a.team = u.pk ∧ a.day_of_week = day)) := by
  have hgetd : ¬ ((some day).getD "" = "") := by simpa using hday
  refine ⟨rfl, ?_, ?_⟩
  · intro hnone
    unfold matching_get
    rw [hnone, if_neg hgetd]
  · intro ut hut
    refine ⟨db.teams.filter (fun u =>
      u.pk != ut.pk &&
      db.avails.any (fun a => a.team == u.pk && a.day_of_week == day)), ?_, ?_⟩
    · unfold matching_get
      rw [hut, if_neg hgetd]
      rfl
    intro u
    rw [List.mem_filter]
    simp only [Bool.and_eq_true, List.any_eq_true, bne_iff_ne, beq_iff_eq,
      and_assoc]

/-- Witness for amended claim C6 at `cdb6` with day MON. -/
theorem matching_day_filter_witness :
    matching_get cdb6 1 none = MatchingResult.badRequest ∧
    (first_managed_team cdb6 1 = none →
      matching_get cdb6 1 (some "MON") = MatchingResult.forbidden) ∧
    (∀ ut, first_managed_team cdb6 1 = some ut →
      ∃ ts, matching_get cdb6 1 (some "MON") = MatchingResult.ok ts ∧
        ∀ u, u ∈ ts ↔ (u ∈ cdb6.teams ∧ u.pk ≠ ut.pk ∧
          ∃ a ∈ cdb6.avails, a.team = u.pk ∧ a.day_of_week = "MON")) :=
  matching_day_filter cdb6 1 "MON" (by decide)

/-- Embeds the `requester_not_receiver` check constraint of `MatchRequest`
(`models.py` lines 94-101): the requester must differ from the receiver. -/
def requester_not_receiver (mr : MatchRequest) : Bool :=
  !(mr.requester == mr.receiver)

/-- Inserting a `MatchRequest` row: the database enforces the check
constraint, so a violating row is refused (IntegrityError) and the stored
state is unchanged. -/
def db_insert_request (db : DB) (mr : MatchRequest) : Option DB :=
  if requester_not_receiver mr then
    some { db with requests := db.requests ++ [mr] }
  else none

/-- Helper: a successful insert passed the check constraint and appended
the row. -/
theorem db_insert_request_eq_some (db : DB) (mr : MatchRequest) (db2 : DB)
    (h : db_insert_request db mr = some db2) :
    mr.requester ≠ mr.receiver ∧ db2.requests = db.requests ++ [mr] := by
  unfold db_insert_request requester_not_receiver at h
  by_cases heq : mr.requester = mr.receiver
  · simp [heq] at h
  · simp [heq] at h
    exact ⟨heq, by rw [← h]⟩

/-- Claim C7: a request from a team to itself is impossible: inserting a
row with equal requester and receiver fails with the stored state
unchanged; a successful insert appends a row with distinct teams; and the
invariant that every stored request relates two distinct teams is
preserved by inserts. -/
theorem match_request_self_constraint (db : DB) (mr : MatchRequest) :
    (mr.requester = mr.receiver → db_insert_request db mr = none) ∧
    (∀ db2, db_insert_request db mr = some db2 →
      mr.requester ≠ mr.receiver ∧ db2.requests = db.requests ++ [mr]) ∧
    ((∀ r ∈ db.requests, r.requester ≠ r.receiver) →
      ∀ db2, db_insert_request db mr = some db2 →
        ∀ r ∈ db2.requests, r.requester ≠ r.receiver) := by
  refine ⟨?_, ?_, ?_⟩
  · intro heq
    unfold db_insert_request requester_not_receiver
    simp [heq]
  · intro db2 hdb2
    exact db_insert_request_eq_some db mr db2 hdb2
  · intro hinv db2 hdb2 r hr
    rcases db_insert_request_eq_some db mr db2 hdb2 with ⟨hne, happ⟩
    rw [happ] at hr
    rcases List.mem_append.mp hr with hold | hnew
    · exact hinv r hold
    · rw [List.mem_singleton.mp hnew]
      exact hne

/-- Witness for claim C7: inserting a concrete self-request into `wdb1`
fails. -/
theorem match_request_self_constraint_witness :
    db_insert_request wdb1 ⟨20, 1, 1, "P", 900, "", 1, 1⟩ = none :=
  (match_request_self_constraint wdb1 ⟨20, 1, 1, "P", 900, "", 1, 1⟩).1 rfl

/-- The writable fields of `MatchRequestSerializer` (`serializers.py` lines
27-35): `requester`, `status`, `created_at` and `updated_at` are declared
read-only, so a client supplies only the receiver, the proposed time and
the location. -/
structure MatchRequestInput where
  receiver : Nat
  match_time : Nat
  location : String
  deriving DecidableEq, Repr

/-- Top-level names the module `teams/serializers.py` defines: its
imports (`serializers` from rest_framework, the four models, `User`) and
its five serializer classes. `views.py` line 30 binds the plain name
`serializers` to THIS module (`from teams import serializers`), so
`serializers.ValidationError` at `views.py` line 433 is an attribute
lookup on it. -/
def teamsSerializersModuleNames : List String :=
  ["serializers", "Team", "Availability", "MatchRequest", "ChatMessage",
   "User", "UserSerializer", "TeamSerializer", "AvailabilitySerializer",
   "MatchRequestSerializer", "ChatMessageSerializer"]

/-- Outcome of `MatchRequestViewSet.perform_create`. `validationError` is
the outcome the raise statement at `views.py` line 433 intends (a DRF
validation error, an HTTP 400); it is unreachable in this code because
the name `serializers` in `views.py` is the module `teams.serializers`
(imported at line 30), which has no `ValidationError` attribute, so the
raise itself fails with an `AttributeError` (an unhandled server
error). -/
inductive CreateOutcome where
  | validationError
  | attributeError
  | integrityError
  | created (db2 : DB) (mr : MatchRequest)
  deriving DecidableEq, Repr

/-- Embeds `MatchRequestViewSet.perform_create` (`views.py` lines
429-435): when the caller manages no team, the attempted raise of a
validation error itself fails with an `AttributeError` and stores
nothing; otherwise the row is saved with the first team managed by the
caller as requester and status "P", through the constrained insert. -/
def matchrequest_perform_create (db : DB) (user : Nat)
    (inp : MatchRequestInput) (newPk nowTime : Nat) : CreateOutcome :=
  match first_managed_team db user with
  | none => CreateOutcome.attributeError
  | some tm =>
    match db_insert_request db
        ⟨newPk, tm.pk, inp.receiver, "P", inp.match_time, inp.location,
          nowTime, nowTime⟩ with
    | none => CreateOutcome.integrityError
    | some db2 =>
      CreateOutcome.created db2
        ⟨newPk, tm.pk, inp.receiver, "P", inp.match_time, inp.location,
          nowTime, nowTime⟩

/-- Counterexample to claim C9 as stated: in `wdb1` user 3 manages no
team, so creation fails and stores nothing — but not with a validation
error: the module bound to the name `serializers` in `views.py` has no
`ValidationError` attribute, so the failure is an `AttributeError`. -/
theorem create_no_team_counterexample :
    first_managed_team wdb1 3 = none ∧
    matchrequest_perform_create wdb1 3 ⟨2, 900, ""⟩ 31 8 =
      CreateOutcome.attributeError ∧
    matchrequest_perform_create wdb1 3 ⟨2, 900, ""⟩ 31 8 ≠
      CreateOutcome.validationError ∧
    "ValidationError" ∉ teamsSerializersModuleNames := by decide

/-- Claim C9 as amended: every request created through the API starts
pending: when creation succeeds the stored row has status "P" and the
first team managed by the caller as requester, and it is appended to the
stored requests (the client input type has no status or requester field
at all); when the caller manages no team, the attempted raise of a
validation error itself fails with an `AttributeError` — never a
validation error — and nothing is stored. -/
theorem created_requests_start_pending (db : DB) (user : Nat)
    (inp : MatchRequestInput) (newPk nowTime : Nat) :
    (first_managed_team db user = none →
      matchrequest_perform_create db user inp newPk nowTime =
        CreateOutcome.attributeError) ∧
    matchrequest_perform_create db user inp newPk nowTime ≠
      CreateOutcome.validationError ∧
    (∀ db2 mr, matchrequest_perform_create db user inp newPk nowTime =
        CreateOutcome.created db2 mr →
      mr.status = "P" ∧
      (∃ tm, first_managed_team db user = some tm ∧ mr.requester = tm.pk) ∧
      db2.requests = db.requests ++ [mr]) := by
  refine ⟨?_, ?_, ?_⟩
  · intro hnone
    simp [matchrequest_perform_create, hnone]
  · unfold matchrequest_perform_create
    cases hfmt : first_managed_team db user with
    | none => simp
    | some tm =>
      dsimp only
      cases hins : db_insert_request db
          ⟨newPk, tm.pk, inp.receiver, "P", inp.match_time, inp.location,
            nowTime, nowTime⟩ with
      | none => simp
      | some db2 => simp
  · intro db2 mr hcreate
    unfold matchrequest_perform_create at hcreate
    cases hfmt : first_managed_team db user with
    | none => rw [hfmt] at hcreate; exact absurd hcreate (by simp)
    | some tm =>
      rw [hfmt] at hcreate
      dsimp only at hcreate
      cases hins : db_insert_request db
          ⟨newPk, tm.pk, inp.receiver, "P", inp.match_time, inp.location,
            nowTime, nowTime⟩ with
      | none => rw [hins] at hcreate; exact absurd hcreate (by simp)
      | some db3 =>
        rw [hins] at hcreate
        simp only [CreateOutcome.created.injEq] at hcreate
        obtain ⟨hdb, hmr⟩ := hcreate
        subst hdb
        rcases db_insert_request_eq_some db _ _ hins with ⟨-, happ⟩
        exact ⟨by rw [← hmr], ⟨tm, rfl, by rw [← hmr]⟩,
          by rw [← hmr]; exact happ⟩

/-- Witness for amended claim C9: creating a request in `wdb1` as user 1
succeeds with a pending row from Alpha (skill 3, pk 1) appended to the
store. -/
theorem created_requests_start_pending_witness :
    (⟨30, 1, 2, "P", 900, "Park", 7, 7⟩ : MatchRequest).status = "P" ∧
    (∃ tm, first_managed_team wdb1 1 = some tm ∧
      (⟨30, 1, 2, "P", 900, "Park", 7, 7⟩ : MatchRequest).requester = tm.pk) ∧
    (⟨wdb1.teams, wdb1.avails, wdb1.requests ++ [⟨30, 1, 2, "P", 900, "Park", 7, 7⟩],
      wdb1.messages⟩ : DB).requests =
      wdb1.requests ++ [⟨30, 1, 2, "P", 900, "Park", 7, 7⟩] :=
  (created_requests_start_pending wdb1 1 ⟨2, 900, "Park"⟩ 30 7).2.2
    ⟨wdb1.teams, wdb1.avails, wdb1.requests ++ [⟨30, 1, 2, "P", 900, "Park", 7, 7⟩],
      wdb1.messages⟩
    ⟨30, 1, 2, "P", 900, "Park", 7, 7⟩ (by decide)

/-- Requests the `send_reminders` command selects (`send_reminders.py`
lines 10-18): status equal to the eight-character string "ACCEPTED" and a
match time in the next 24 hours (times in minutes). -/
def upcoming_matches (db : DB) (now : Nat) : List MatchRequest :=
  db.requests.filter (fun r =>
    r.status == "ACCEPTED" &&
    decide (now ≤ r.match_time) &&
    decide (r.match_time < now + 24 * 60))

/-- The reminder line `send_reminders` prints for one match
(`send_reminders.py` lines 25-31); the strftime rendering of the match
time is modelled as the numeric timestamp. -/
def reminder_message (db : DB) (m : MatchRequest) : String :=
  "[REMINDER] Match scheduled! " ++ teamName db m.requester ++ " vs " ++
  teamName db m.receiver ++ " is happening in less than 24 hours on " ++
  toString m.match_time ++ ". Location: " ++ m.location.take 50 ++ "..."

/-- Embeds `Command.handle` of `send_reminders` (`send_reminders.py` lines
10-34) as the list of lines written to standard output. -/
def send_reminders_output (db : DB) (now : Nat) : List String :=
  if (upcoming_matches db now).isEmpty then
    ["No upcoming accepted matches found for reminder window."]
  else
    ((upcoming_matches db now).map (fun m => reminder_message db m)) ++
    ["Successfully checked and sent " ++
      toString (upcoming_matches db now).length ++ " reminders."]

/-- Claim C10: whenever every stored request carries one of the declared
one-character status codes, `send_reminders` selects nothing — no request
can equal "ACCEPTED" — so it sends zero reminders and prints only the
no-matches notice. -/
theorem send_reminders_sends_nothing (db : DB) (now : Nat)
    (hcodes : ∀ r ∈ db.requests,
      r.status = "P" ∨ r.status = "A" ∨ r.status = "R" ∨ r.status = "C") :
    upcoming_matches db now = [] ∧
    send_reminders_output db now =
      ["No upcoming accepted matches found for reminder window."] := by
  have hempty : upcoming_matches db now = [] := by
    rw [upcoming_matches, List.filter_eq_nil_iff]
    intro r hr
    rcases hcodes r hr with h | h | h | h <;>
      simp [h]
  refine ⟨hempty, ?_⟩
  rw [send_reminders_output, hempty]
  rfl

/-- Witness for claim C10 at a concrete database whose requests use every
declared code once, with a match time inside the reminder window. -/
theorem send_reminders_sends_nothing_witness :
    upcoming_matches
      ⟨[], [], [⟨1, 1, 2, "P", 100, "", 1, 1⟩, ⟨2, 1, 2, "A", 100, "", 1, 1⟩,
        ⟨3, 1, 2, "R", 100, "", 1, 1⟩, ⟨4, 1, 2, "C", 100, "", 1, 1⟩], []⟩ 50 = [] ∧
    send_reminders_output
      ⟨[], [], [⟨1, 1, 2, "P", 100, "", 1, 1⟩, ⟨2, 1, 2, "A", 100, "", 1, 1⟩,
        ⟨3, 1, 2, "R", 100, "", 1, 1⟩, ⟨4, 1, 2, "C", 100, "", 1, 1⟩], []⟩ 50 =
      ["No upcoming accepted matches found for reminder window."] :=
  send_reminders_sends_nothing
    ⟨[], [], [⟨1, 1, 2, "P", 100, "", 1, 1⟩, ⟨2, 1, 2, "A", 100, "", 1, 1⟩,
      ⟨3, 1, 2, "R", 100, "", 1, 1⟩, ⟨4, 1, 2, "C", 100, "", 1, 1⟩], []⟩ 50
    (by decide)

end TheRoaster
